import Mathlib

/-!
Shallow embedding of the pool-share query component of the repository
(file src/packages/stores/src/queries/pool-share/index.ts, class
ObservableQueryGammPoolShare), together with a value-level model of the
external collaborators it reads (balance view, locked-coins view,
unlocking-coins view, pool lookup) and of the decimal value types from
the unit library (CoinPretty, RatePretty, PricePretty).

Amounts are modelled as exact rationals: the unit library computes with
arbitrary-precision decimals, and the spec treats them as opaque exact
values supporting add, multiply, divide and compare.  Display-only
adjustments of the library (trim, shrink, maxDecimals) do not change the
numeric value and are modelled as the identity.
-/

namespace PoolShare

/-- A currency description: display denom, minimal denom, decimals.
Mirrors the Currency type used by the source. -/
structure Currency where
  coinDenom : String
  coinMinimalDenom : String
  coinDecimals : Nat
  deriving DecidableEq, Repr

/-- A coin amount tagged with its currency.  Models CoinPretty from the
unit library; `amount` is the decimal (human-unit) value of the coin. -/
structure CoinPretty where
  currency : Currency
  amount : ℚ
  deriving DecidableEq, Repr

/-- CoinPretty.add of the unit library: adds the amounts, keeping the
currency of the left operand. -/
def CoinPretty.add (c d : CoinPretty) : CoinPretty :=
  { currency := c.currency, amount := c.amount + d.amount }

/-- A rate carrying a ready flag.  Models RatePretty from the unit
library; `rate` is the fraction handed to the constructor (1 = 100 percent)
and `isReady` is the ready flag (`true` unless `.ready(false)` was called). -/
structure RatePretty where
  rate : ℚ
  isReady : Bool
  deriving DecidableEq, Repr

/-- `new RatePretty(x)` in the source: ready rate with fraction x. -/
def RatePretty.ofRat (x : ℚ) : RatePretty :=
  { rate := x, isReady := true }

/-- A fiat price carrying a ready flag.  Models PricePretty from the
unit library (fiat currency symbol, decimal amount, ready flag). -/
structure PricePretty where
  fiatCurrency : String
  amount : ℚ
  isReady : Bool
  deriving DecidableEq, Repr

/-- One asset of a pool: its weight and its coin amount, as exposed by
the pool lookup. -/
structure PoolAsset where
  weight : ℚ
  amount : CoinPretty
  deriving DecidableEq, Repr

/-- Pool metadata consumed by the component, as exposed by the external
pool lookup: total share supply, per-asset weights and amounts, total
weight. -/
structure Pool where
  totalShare : CoinPretty
  poolAssets : List PoolAsset
  totalWeight : ℚ
  deriving DecidableEq, Repr

/-- A read-only snapshot of the external collaborators, keyed by bech32
address (spec section 6): raw wallet balances, locked-coin records,
unlocking-coin records, and the pool lookup. -/
structure Snapshot where
  balances : String → List CoinPretty
  lockedCoins : String → List CoinPretty
  unlockingCoins : String → List CoinPretty
  pools : String → Option Pool

/-- The balance view restricted to positive balances
(ObservableQueryBalances.positiveBalances of the external store:
balances whose decimal amount is greater than zero). -/
def positiveBalances (l : List CoinPretty) : List CoinPretty :=
  l.filter (fun c => decide (0 < c.amount))

/-- getBalanceFromCurrency of the external balance view: the first
balance whose minimal denom matches the requested currency, or a zero
coin of that currency when none matches. -/
def getBalanceFromCurrency (l : List CoinPretty) (currency : Currency) : CoinPretty :=
  match l.find? (fun b => b.currency.coinMinimalDenom == currency.coinMinimalDenom) with
  | some bal => bal
  | none => { currency := currency, amount := 0 }

/-- ObservableQueryGammPoolShare.getShareCurrency: the synthetic share
currency of a pool, built deterministically from the pool id. -/
def getShareCurrency (poolId : String) : Currency :=
  { coinDenom := "GAMM/" ++ poolId
    coinMinimalDenom := "gamm/pool/" ++ poolId
    coinDecimals := 18 }

/-- getLockedGammShare: the first locked-coin record whose minimal denom
is the share denom of the pool, or a zero coin of the share currency. -/
def getLockedGammShare (s : Snapshot) (addr poolId : String) : CoinPretty :=
  match (s.lockedCoins addr).find?
      (fun coin => coin.currency.coinMinimalDenom == (getShareCurrency poolId).coinMinimalDenom) with
  | some locked => locked
  | none => { currency := getShareCurrency poolId, amount := 0 }

/-- getUnlockingGammShare: the first unlocking-coin record whose minimal
denom is the share denom of the pool, or a zero coin of the share
currency. -/
def getUnlockingGammShare (s : Snapshot) (addr poolId : String) : CoinPretty :=
  match (s.unlockingCoins addr).find?
      (fun coin => coin.currency.coinMinimalDenom == (getShareCurrency poolId).coinMinimalDenom) with
  | some locked => locked
  | none => { currency := getShareCurrency poolId, amount := 0 }

/-- getAvailableGammShare: the wallet balance of the share currency. -/
def getAvailableGammShare (s : Snapshot) (addr poolId : String) : CoinPretty :=
  getBalanceFromCurrency (s.balances addr) (getShareCurrency poolId)

/-- getAllGammShare: available plus locked (the unlocking coins are
already contained in the locked coins and are not added). -/
def getAllGammShare (s : Snapshot) (addr poolId : String) : CoinPretty :=
  (getAvailableGammShare s addr poolId).add (getLockedGammShare s addr poolId)

/-- getLockedGammShareRatio: not-ready when the pool is unknown; ready
zero when the total share is zero; otherwise the locked amount divided by
the total share, shifted two decimal places left by the source. -/
def getLockedGammShareRatio (s : Snapshot) (addr poolId : String) : RatePretty :=
  match s.pools poolId with
  | none => { rate := 0, isReady := false }
  | some pool =>
    if pool.totalShare.amount = 0 then RatePretty.ofRat 0
    else
      RatePretty.ofRat
        ((getLockedGammShare s addr poolId).amount / pool.totalShare.amount / 100)

/-- getAvailableGammShareRatio: not-ready when the pool is unknown; ready
zero when the total share is zero; otherwise the available amount divided
by the total share. -/
def getAvailableGammShareRatio (s : Snapshot) (addr poolId : String) : RatePretty :=
  match s.pools poolId with
  | none => { rate := 0, isReady := false }
  | some pool =>
    if pool.totalShare.amount = 0 then RatePretty.ofRat 0
    else
      RatePretty.ofRat
        ((getAvailableGammShare s addr poolId).amount / pool.totalShare.amount)

/-- getAllGammShareRatio: not-ready when the pool is unknown; when the
total share is zero, a ready rate constructed directly from the zero
total-share value; otherwise the owned amount divided by the total
share. -/
def getAllGammShareRatio (s : Snapshot) (addr poolId : String) : RatePretty :=
  match s.pools poolId with
  | none => { rate := 0, isReady := false }
  | some pool =>
    if pool.totalShare.amount = 0 then RatePretty.ofRat pool.totalShare.amount
    else
      RatePretty.ofRat
        ((getAllGammShare s addr poolId).amount / pool.totalShare.amount)

/-- getLockedGammShareValue: not-ready zero price when the pool is
unknown; ready zero price when the total share is zero; otherwise the
pool liquidity multiplied by the locked fraction (trim is display-only). -/
def getLockedGammShareValue (s : Snapshot) (addr poolId : String)
    (poolLiquidity : PricePretty) (fiatCurrency : String) : PricePretty :=
  match s.pools poolId with
  | none => { fiatCurrency := fiatCurrency, amount := 0, isReady := false }
  | some pool =>
    if pool.totalShare.amount = 0 then
      { fiatCurrency := fiatCurrency, amount := 0, isReady := true }
    else
      { fiatCurrency := poolLiquidity.fiatCurrency
        amount := poolLiquidity.amount *
          ((getLockedGammShare s addr poolId).amount / pool.totalShare.amount)
        isReady := poolLiquidity.isReady }

/-- Model of the JS string test used by getOwnPools:
`coinMinimalDenom.startsWith("gamm/pool/")`, via the underlying
character lists. -/
def strStartsWith (s t : String) : Bool :=
  s.data.take t.data.length == t.data

/-- Model of `denom.replace("gamm/pool/", "")` on a denom that starts
with the prefix string: the replaced occurrence is the leading one, so
the call removes the first ten characters. -/
def dropPoolDenomHead (s : String) : String :=
  String.mk (s.data.drop 10)

/-- Model of JS parseInt on the pool-id strings: the leading decimal
digits, or none (NaN) when the string starts with a non-digit. -/
def parseNatHead (s : String) : Option Nat :=
  let digits := s.data.takeWhile Char.isDigit
  if digits.isEmpty then none
  else some (digits.foldl (fun n c => 10 * n + (c.toNat - 48)) 0)

/-- The numeric value of a pool id, defaulting to 0 when parseInt would
give NaN. -/
def numVal (s : String) : Nat :=
  (parseNatHead s).getD 0

/-- The comparator passed to sort by getOwnPools:
`parseInt(e1) >= parseInt(e2) ? 1 : -1` (every comparison against NaN is
false, so it yields -1 when either side fails to parse). -/
def jsCmp (a b : String) : Int :=
  match parseNatHead a, parseNatHead b with
  | some x, some y => if y ≤ x then 1 else -1
  | _, _ => -1

/-- Comparator-driven insertion into a list: the element goes before the
first entry the comparator does not place it after.  Models the
observable behaviour of the JS array sort, which orders a before b
exactly when the comparator returns a negative value. -/
def insertCmp (cmp : String → String → Int) (x : String) : List String → List String
  | [] => [x]
  | y :: ys => if cmp x y ≤ 0 then x :: y :: ys else y :: insertCmp cmp x ys

/-- Comparator-driven sort (insertion sort), modelling the JS array
sort. -/
def sortCmp (cmp : String → String → Int) (l : List String) : List String :=
  l.foldr (insertCmp cmp) []

/-- Worker for dedupFirst: drops elements already seen, in order. -/
def dedupFirstAux (seen : List String) : List String → List String
  | [] => []
  | x :: xs =>
    if seen.contains x then dedupFirstAux seen xs
    else x :: dedupFirstAux (x :: seen) xs

/-- Model of `[...new Set(result)]`: removes duplicates, keeping the
first occurrence of each element. -/
def dedupFirst (l : List String) : List String :=
  dedupFirstAux [] l

/-- The id-extraction loop of getOwnPools: over the given coin records
in order, keep those whose minimal denom starts with the share-token
head and strip that head off. -/
def extractPoolIds (coins : List CoinPretty) : List String :=
  (coins.filter (fun c => strStartsWith c.currency.coinMinimalDenom ("gamm/pool/"))).map
    (fun c => dropPoolDenomHead c.currency.coinMinimalDenom)

/-- getOwnPools: pool ids extracted from the positive balances followed
by the locked-coin records, de-duplicated, then sorted with the numeric
comparator. -/
def getOwnPools (s : Snapshot) (addr : String) : List String :=
  sortCmp jsCmp
    (dedupFirst (extractPoolIds (positiveBalances (s.balances addr) ++ s.lockedCoins addr)))

/-- One entry of the getShareAssets result. -/
structure ShareAsset where
  ratio : RatePretty
  asset : CoinPretty
  deriving DecidableEq, Repr

/-- getShareAssets: empty when the pool is unknown or the ownership rate
is not ready; otherwise, per pool asset, the weight fraction and the
asset amount scaled by the ownership fraction (trim and shrink are
display-only; the two-place decimal shift of the source converts the
percent-scaled rate back to the plain fraction used here). -/
def getShareAssets (s : Snapshot) (addr poolId : String) : List ShareAsset :=
  let shareRatio := getAllGammShareRatio s addr poolId
  match s.pools poolId with
  | none => []
  | some pool =>
    if !shareRatio.isReady then []
    else
      pool.poolAssets.map (fun asset =>
        { ratio := RatePretty.ofRat (asset.weight / pool.totalWeight)
          asset := { currency := asset.amount.currency
                     amount := asset.amount.amount * shareRatio.rate } })

/-- The amount the find-or-zero lookup yields on a coin list for a
given minimal denom: the amount of the first matching record, or zero. -/
def foundShareAmount (coins : List CoinPretty) (denom : String) : ℚ :=
  match coins.find? (fun c => c.currency.coinMinimalDenom == denom) with
  | some c => c.amount
  | none => 0

section Lemmas

lemma mem_dedupFirstAux (l : List String) (seen : List String) (y : String) :
    y ∈ dedupFirstAux seen l ↔ y ∈ l ∧ y ∉ seen := by
  induction l generalizing seen with
  | nil => simp [dedupFirstAux]
  | cons x xs ih =>
    unfold dedupFirstAux
    by_cases hx : seen.contains x
    · rw [if_pos hx]
      rw [show seen.contains x = List.elem x seen from rfl, List.elem_iff] at hx
      simp only [ih, List.mem_cons]
      constructor
      · rintro ⟨hy, hns⟩
        exact ⟨Or.inr hy, hns⟩
      · rintro ⟨hy | hy, hns⟩
        · exact absurd (hy ▸ hx) hns
        · exact ⟨hy, hns⟩
    · rw [if_neg hx]
      rw [show seen.contains x = List.elem x seen from rfl, List.elem_iff] at hx
      simp only [List.mem_cons, ih, List.mem_cons, not_or]
      constructor
      · rintro (rfl | ⟨hy, hne, hns⟩)
        · exact ⟨Or.inl rfl, hx⟩
        · exact ⟨Or.inr hy, hns⟩
      · rintro ⟨rfl | hy, hns⟩
        · exact Or.inl rfl
        · by_cases hxy : y = x
          · exact Or.inl hxy
          · exact Or.inr ⟨hy, hxy, hns⟩

lemma nodup_dedupFirstAux (l : List String) (seen : List String) :
    (dedupFirstAux seen l).Nodup := by
  induction l generalizing seen with
  | nil => simp [dedupFirstAux]
  | cons x xs ih =>
    unfold dedupFirstAux
    by_cases hx : seen.contains x
    · rw [if_pos hx]; exact ih seen
    · rw [if_neg hx]
      refine List.nodup_cons.mpr ⟨?_, ih (x :: seen)⟩
      intro hmem
      exact ((mem_dedupFirstAux xs (x :: seen) x).mp hmem).2 (List.mem_cons_self x seen)

lemma mem_dedupFirst (l : List String) (y : String) :
    y ∈ dedupFirst l ↔ y ∈ l := by
  rw [dedupFirst, mem_dedupFirstAux]
  simp

lemma nodup_dedupFirst (l : List String) : (dedupFirst l).Nodup :=
  nodup_dedupFirstAux l []

lemma insertCmp_perm (cmp : String → String → Int) (x : String) (l : List String) :
    (insertCmp cmp x l).Perm (x :: l) := by
  induction l with
  | nil => exact List.Perm.refl _
  | cons y ys ih =>
    unfold insertCmp
    by_cases h : cmp x y ≤ 0
    · rw [if_pos h]
    · rw [if_neg h]
      exact (ih.cons y).trans (List.Perm.swap x y ys)

lemma sortCmp_perm (cmp : String → String → Int) (l : List String) :
    (sortCmp cmp l).Perm l := by
  induction l with
  | nil => exact List.Perm.refl _
  | cons x xs ih =>
    exact (insertCmp_perm cmp x (sortCmp cmp xs)).trans (ih.cons x)

lemma jsCmp_le_iff (a b : String) (ha : (parseNatHead a).isSome)
    (hb : (parseNatHead b).isSome) :
    jsCmp a b ≤ 0 ↔ numVal a < numVal b := by
  obtain ⟨x, hx⟩ := Option.isSome_iff_exists.mp ha
  obtain ⟨y, hy⟩ := Option.isSome_iff_exists.mp hb
  unfold jsCmp numVal
  rw [hx, hy]
  show (if y ≤ x then (1 : Int) else -1) ≤ 0 ↔ (some x).getD 0 < (some y).getD 0
  simp only [Option.getD_some]
  by_cases hle : y ≤ x
  · rw [if_pos hle]
    omega
  · rw [if_neg hle]
    omega

lemma pairwise_insertCmp (x : String) (l : List String)
    (hx : (parseNatHead x).isSome) (hl : ∀ y ∈ l, (parseNatHead y).isSome)
    (hp : l.Pairwise (fun a b => numVal a ≤ numVal b)) :
    (insertCmp jsCmp x l).Pairwise (fun a b => numVal a ≤ numVal b) := by
  induction l with
  | nil => simp [insertCmp]
  | cons y ys ih =>
    rw [List.pairwise_cons] at hp
    obtain ⟨hy, hys⟩ := hp
    have hymem : (parseNatHead y).isSome := hl y (List.mem_cons_self y ys)
    unfold insertCmp
    by_cases h : jsCmp x y ≤ 0
    · rw [if_pos h]
      have hxy : numVal x < numVal y := (jsCmp_le_iff x y hx hymem).mp h
      refine List.pairwise_cons.mpr ⟨?_, List.pairwise_cons.mpr ⟨hy, hys⟩⟩
      intro z hz
      rcases List.mem_cons.mp hz with rfl | hz
      · exact le_of_lt hxy
      · exact le_of_lt (lt_of_lt_of_le hxy (hy z hz))
    · rw [if_neg h]
      have hyx : numVal y ≤ numVal x := by
        have := (jsCmp_le_iff x y hx hymem).not.mp h
        omega
      refine List.pairwise_cons.mpr ⟨?_, ?_⟩
      · intro z hz
        rcases List.mem_cons.mp ((insertCmp_perm jsCmp x ys).mem_iff.mp hz) with rfl | hz
        · exact hyx
        · exact hy z hz
      · exact ih (fun z hz => hl z (List.mem_cons_of_mem y hz)) hys

lemma pairwise_sortCmp (l : List String)
    (hl : ∀ y ∈ l, (parseNatHead y).isSome) :
    (sortCmp jsCmp l).Pairwise (fun a b => numVal a ≤ numVal b) := by
  induction l with
  | nil => simp [sortCmp]
  | cons x xs ih =>
    have hx : (parseNatHead x).isSome := hl x (List.mem_cons_self x xs)
    have hxs : ∀ y ∈ xs, (parseNatHead y).isSome :=
      fun y hy => hl y (List.mem_cons_of_mem x hy)
    exact pairwise_insertCmp x (sortCmp jsCmp xs) hx
      (fun y hy => hxs y ((sortCmp_perm jsCmp xs).mem_iff.mp hy))
      (ih hxs)

lemma getLockedGammShare_amount (s : Snapshot) (addr poolId : String) :
    (getLockedGammShare s addr poolId).amount =
      foundShareAmount (s.lockedCoins addr) ("gamm/pool/" ++ poolId) := by
  unfold getLockedGammShare foundShareAmount getShareCurrency
  simp only
  cases (s.lockedCoins addr).find?
      (fun coin => coin.currency.coinMinimalDenom == "gamm/pool/" ++ poolId) with
  | none => rfl
  | some c => rfl

lemma getUnlockingGammShare_amount (s : Snapshot) (addr poolId : String) :
    (getUnlockingGammShare s addr poolId).amount =
      foundShareAmount (s.unlockingCoins addr) ("gamm/pool/" ++ poolId) := by
  unfold getUnlockingGammShare foundShareAmount getShareCurrency
  simp only
  cases (s.unlockingCoins addr).find?
      (fun coin => coin.currency.coinMinimalDenom == "gamm/pool/" ++ poolId) with
  | none => rfl
  | some c => rfl

end Lemmas

section ConcreteData

/-- Shorthand for a concrete share currency used by the concrete
snapshots below. -/
def shareCur (i : String) : Currency := getShareCurrency i

/-- A snapshot whose pool lookup is empty everywhere. -/
def snapNoPool : Snapshot :=
  { balances := fun _ => [{ currency := shareCur "7", amount := 30 }]
    lockedCoins := fun _ => [{ currency := shareCur "7", amount := 50 }]
    unlockingCoins := fun _ => []
    pools := fun _ => none }

/-- Balance list shared by the two C2 witness snapshots. -/
def balListC2 : List CoinPretty := [{ currency := shareCur "3", amount := 30 }]

/-- Locked list shared by the two C2 witness snapshots. -/
def lockedListC2 : List CoinPretty := [{ currency := shareCur "3", amount := 50 }]

/-- First C2 witness snapshot: some unlocking coins, no pools. -/
def snapC2a : Snapshot :=
  { balances := fun _ => balListC2
    lockedCoins := fun _ => lockedListC2
    unlockingCoins := fun _ => [{ currency := shareCur "3", amount := 20 }]
    pools := fun _ => none }

/-- Second C2 witness snapshot: same balances and locked coins, but a
different unlocking view and a different pool registry. -/
def snapC2b : Snapshot :=
  { balances := fun _ => balListC2
    lockedCoins := fun _ => lockedListC2
    unlockingCoins := fun _ => [{ currency := shareCur "3", amount := 999 }]
    pools := fun _ =>
      some { totalShare := { currency := shareCur "3", amount := 100 }
             poolAssets := [], totalWeight := 1 } }

/-- A snapshot whose only pool has a zero total share. -/
def snapZeroShare : Snapshot :=
  { balances := fun _ => [{ currency := shareCur "4", amount := 30 }]
    lockedCoins := fun _ => [{ currency := shareCur "4", amount := 50 }]
    unlockingCoins := fun _ => []
    pools := fun i =>
      if i == "4" then
        some { totalShare := { currency := shareCur "4", amount := 0 }
               poolAssets := [], totalWeight := 1 }
      else none }

end ConcreteData

/-- C1: whenever the pool lookup has no entry for the pool id, the four
ratio- and value-returning operations each come back not ready — a result
observably distinct from every ready rate, in particular from a ready
zero — and getShareAssets comes back empty. -/
theorem absentPool_notReady (s : Snapshot) (addr poolId : String)
    (poolLiquidity : PricePretty) (fiatCurrency : String)
    (h : s.pools poolId = none) :
    (getLockedGammShareRatio s addr poolId).isReady = false ∧
    (getAvailableGammShareRatio s addr poolId).isReady = false ∧
    (getAllGammShareRatio s addr poolId).isReady = false ∧
    (getLockedGammShareValue s addr poolId poolLiquidity fiatCurrency).isReady = false ∧
    getShareAssets s addr poolId = [] ∧
    (∀ x : ℚ,
      getLockedGammShareRatio s addr poolId ≠ RatePretty.ofRat x ∧
      getAvailableGammShareRatio s addr poolId ≠ RatePretty.ofRat x ∧
      getAllGammShareRatio s addr poolId ≠ RatePretty.ofRat x) := by
  simp [getLockedGammShareRatio, getAvailableGammShareRatio, getAllGammShareRatio,
    getLockedGammShareValue, getShareAssets, h, RatePretty.ofRat, RatePretty.mk.injEq]

/-- Witness for C1 at a concrete snapshot whose pool lookup is empty. -/
theorem absentPool_notReady_witness :
    snapNoPool.pools "7" = none ∧
    ((getLockedGammShareRatio snapNoPool "A" "7").isReady = false ∧
    (getAvailableGammShareRatio snapNoPool "A" "7").isReady = false ∧
    (getAllGammShareRatio snapNoPool "A" "7").isReady = false ∧
    (getLockedGammShareValue snapNoPool "A" "7"
      { fiatCurrency := "usd", amount := 1, isReady := true } "usd").isReady = false ∧
    getShareAssets snapNoPool "A" "7" = [] ∧
    (∀ x : ℚ,
      getLockedGammShareRatio snapNoPool "A" "7" ≠ RatePretty.ofRat x ∧
      getAvailableGammShareRatio snapNoPool "A" "7" ≠ RatePretty.ofRat x ∧
      getAllGammShareRatio snapNoPool "A" "7" ≠ RatePretty.ofRat x)) :=
  ⟨rfl, absentPool_notReady snapNoPool "A" "7"
    { fiatCurrency := "usd", amount := 1, isReady := true } "usd" rfl⟩

/-- C2: the total owned share equals the available share plus the locked
share, both as values and amounts, and the unlocking view is never added
in: a snapshot agreeing on balances and locked coins but differing
arbitrarily in unlocking coins and pools yields the same total. -/
theorem allShare_available_add_locked (s t : Snapshot) (addr poolId : String)
    (hb : t.balances = s.balances) (hl : t.lockedCoins = s.lockedCoins) :
    getAllGammShare s addr poolId =
      (getAvailableGammShare s addr poolId).add (getLockedGammShare s addr poolId) ∧
    (getAllGammShare s addr poolId).amount =
      (getAvailableGammShare s addr poolId).amount +
        (getLockedGammShare s addr poolId).amount ∧
    getAllGammShare t addr poolId = getAllGammShare s addr poolId := by
  refine ⟨rfl, rfl, ?_⟩
  simp [getAllGammShare, getAvailableGammShare, getLockedGammShare,
    getBalanceFromCurrency, hb, hl]

/-- Witness for C2: the two concrete snapshots share balances and locked
coins but disagree on unlocking coins and pools. -/
theorem allShare_available_add_locked_witness :
    snapC2b.balances = snapC2a.balances ∧
    snapC2b.lockedCoins = snapC2a.lockedCoins ∧
    (getAllGammShare snapC2a "A" "3" =
      (getAvailableGammShare snapC2a "A" "3").add (getLockedGammShare snapC2a "A" "3") ∧
    (getAllGammShare snapC2a "A" "3").amount =
      (getAvailableGammShare snapC2a "A" "3").amount +
        (getLockedGammShare snapC2a "A" "3").amount ∧
    getAllGammShare snapC2b "A" "3" = getAllGammShare snapC2a "A" "3") :=
  ⟨rfl, rfl, allShare_available_add_locked snapC2a snapC2b "A" "3" rfl rfl⟩

/-- C3: for a known pool whose total share is the zero amount,
getAllGammShareRatio is ready and its rate is constructed directly from
the zero total-share value, not a not-ready result. -/
theorem allShareRatio_zeroTotalShare (s : Snapshot) (addr poolId : String)
    (pool : Pool) (hp : s.pools poolId = some pool)
    (hz : pool.totalShare.amount = 0) :
    getAllGammShareRatio s addr poolId = RatePretty.ofRat pool.totalShare.amount ∧
    (getAllGammShareRatio s addr poolId).isReady = true ∧
    (getAllGammShareRatio s addr poolId).rate = 0 := by
  simp [getAllGammShareRatio, hp, hz, RatePretty.ofRat]

/-- Witness for C3 at a concrete snapshot whose pool 4 has zero total
share. -/
theorem allShareRatio_zeroTotalShare_witness :
    snapZeroShare.pools "4" =
      some { totalShare := { currency := shareCur "4", amount := 0 }
             poolAssets := [], totalWeight := 1 } ∧
    (getAllGammShareRatio snapZeroShare "A" "4" =
      RatePretty.ofRat
        (Pool.mk { currency := shareCur "4", amount := 0 } [] 1).totalShare.amount ∧
    (getAllGammShareRatio snapZeroShare "A" "4").isReady = true ∧
    (getAllGammShareRatio snapZeroShare "A" "4").rate = 0) :=
  ⟨rfl, allShareRatio_zeroTotalShare snapZeroShare "A" "4"
    { totalShare := { currency := shareCur "4", amount := 0 }
      poolAssets := [], totalWeight := 1 } rfl rfl⟩

/-- C4: for a known pool whose total share is the zero amount,
getLockedGammShareRatio and getAvailableGammShareRatio are each the
ready exact-zero rate: the division is short-circuited. -/
theorem lockedAvailableRatio_zeroTotalShare (s : Snapshot) (addr poolId : String)
    (pool : Pool) (hp : s.pools poolId = some pool)
    (hz : pool.totalShare.amount = 0) :
    getLockedGammShareRatio s addr poolId = RatePretty.ofRat 0 ∧
    getAvailableGammShareRatio s addr poolId = RatePretty.ofRat 0 ∧
    (getLockedGammShareRatio s addr poolId).isReady = true ∧
    (getAvailableGammShareRatio s addr poolId).isReady = true := by
  simp [getLockedGammShareRatio, getAvailableGammShareRatio, hp, hz, RatePretty.ofRat]

/-- Witness for C4 at the zero-total-share snapshot. -/
theorem lockedAvailableRatio_zeroTotalShare_witness :
    snapZeroShare.pools "4" =
      some { totalShare := { currency := shareCur "4", amount := 0 }
             poolAssets := [], totalWeight := 1 } ∧
    (getLockedGammShareRatio snapZeroShare "A" "4" = RatePretty.ofRat 0 ∧
    getAvailableGammShareRatio snapZeroShare "A" "4" = RatePretty.ofRat 0 ∧
    (getLockedGammShareRatio snapZeroShare "A" "4").isReady = true ∧
    (getAvailableGammShareRatio snapZeroShare "A" "4").isReady = true) :=
  ⟨rfl, lockedAvailableRatio_zeroTotalShare snapZeroShare "A" "4"
    { totalShare := { currency := shareCur "4", amount := 0 }
      poolAssets := [], totalWeight := 1 } rfl rfl⟩

section ConcreteDataB

/-- Concrete snapshot for C5: positive balances in pools 2 and 10, a
zero balance in pool 9, a non-share balance, and locked coins in pools
1 and 2 (pool 2 duplicated across the two sources). -/
def snapOwn : Snapshot :=
  { balances := fun _ =>
      [{ currency := shareCur "2", amount := 1 },
       { currency := shareCur "10", amount := 5 },
       { currency := { coinDenom := "OSMO", coinMinimalDenom := "uosmo", coinDecimals := 6 }
         amount := 7 },
       { currency := shareCur "9", amount := 0 }]
    lockedCoins := fun _ =>
      [{ currency := shareCur "1", amount := 3 },
       { currency := shareCur "2", amount := 4 }]
    unlockingCoins := fun _ => []
    pools := fun _ => none }

/-- Concrete snapshot for C6: locked 50, unlocking 20, balance 30 in
pool 3, whose total share is 100. -/
def snapEndToEnd : Snapshot :=
  { balances := fun _ => [{ currency := shareCur "3", amount := 30 }]
    lockedCoins := fun _ => [{ currency := shareCur "3", amount := 50 }]
    unlockingCoins := fun _ => [{ currency := shareCur "3", amount := 20 }]
    pools := fun i =>
      if i == "3" then
        some { totalShare := { currency := shareCur "3", amount := 100 }
               poolAssets := [], totalWeight := 1 }
      else none }

/-- Counterexample snapshot for C7: the unlocking view records 5 shares
of pool 1 while the locked view records none. -/
def snapUnlockOnly : Snapshot :=
  { balances := fun _ => []
    lockedCoins := fun _ => []
    unlockingCoins := fun _ => [{ currency := shareCur "1", amount := 5 }]
    pools := fun _ => none }

/-- Snapshot for the C9 witness: the locked view holds a record for
pool 5 only, the unlocking view holds none at all. -/
def snapLockOnly : Snapshot :=
  { balances := fun _ => []
    lockedCoins := fun _ => [{ currency := shareCur "5", amount := 50 }]
    unlockingCoins := fun _ => []
    pools := fun _ => none }

/-- Snapshot for the C10 witness: same balance, locked and unlocking
views as snapEndToEnd, but an empty pool registry. -/
def snapEndToEndNoPool : Snapshot :=
  { balances := snapEndToEnd.balances
    lockedCoins := snapEndToEnd.lockedCoins
    unlockingCoins := snapEndToEnd.unlockingCoins
    pools := fun _ => none }

end ConcreteDataB

/-- C5: getOwnPools is exactly the ids extracted from the positive
balances and locked-coin records that carry a share denom, first
occurrences kept and later duplicates removed, arranged so that the
numeric ids ascend (assuming every extracted id parses as a number, as
share denoms do). -/
theorem getOwnPools_spec (s : Snapshot) (addr : String)
    (h : ∀ id ∈ extractPoolIds (positiveBalances (s.balances addr) ++ s.lockedCoins addr),
      (parseNatHead id).isSome) :
    (getOwnPools s addr).Perm
      (dedupFirst (extractPoolIds (positiveBalances (s.balances addr) ++ s.lockedCoins addr))) ∧
    (∀ x, x ∈ getOwnPools s addr ↔
      x ∈ extractPoolIds (positiveBalances (s.balances addr) ++ s.lockedCoins addr)) ∧
    (getOwnPools s addr).Nodup ∧
    (getOwnPools s addr).Pairwise (fun a b => numVal a ≤ numVal b) := by
  have hperm : (getOwnPools s addr).Perm
      (dedupFirst (extractPoolIds (positiveBalances (s.balances addr) ++ s.lockedCoins addr))) :=
    sortCmp_perm jsCmp _
  refine ⟨hperm, ?_, ?_, ?_⟩
  · intro x
    rw [hperm.mem_iff, mem_dedupFirst]
  · exact hperm.nodup_iff.mpr (nodup_dedupFirst _)
  · exact pairwise_sortCmp _
      (fun y hy => h y ((mem_dedupFirst _ y).mp hy))

/-- Witness for C5 at the concrete snapshot: the ids 2, 10, 9, 1, 2 are
extracted and the result is the numerically ascending [1, 2, 10]. -/
theorem getOwnPools_spec_witness :
    getOwnPools snapOwn "A" = ["1", "2", "10"] ∧
    (∀ id ∈ extractPoolIds (positiveBalances (snapOwn.balances "A") ++ snapOwn.lockedCoins "A"),
      (parseNatHead id).isSome) ∧
    ((getOwnPools snapOwn "A").Perm
      (dedupFirst (extractPoolIds (positiveBalances (snapOwn.balances "A") ++ snapOwn.lockedCoins "A"))) ∧
    (∀ x, x ∈ getOwnPools snapOwn "A" ↔
      x ∈ extractPoolIds (positiveBalances (snapOwn.balances "A") ++ snapOwn.lockedCoins "A")) ∧
    (getOwnPools snapOwn "A").Nodup ∧
    (getOwnPools snapOwn "A").Pairwise (fun a b => numVal a ≤ numVal b)) :=
  ⟨by decide, by decide, getOwnPools_spec snapOwn "A" (by decide)⟩

/-- C6: the end-to-end scenario — locked 50, unlocking 20, available 30,
total owned 80, and a ready ownership rate of 0.8 (80 percent). -/
theorem endToEnd_scenario :
    (getLockedGammShare snapEndToEnd "A" "3").amount = 50 ∧
    (getUnlockingGammShare snapEndToEnd "A" "3").amount = 20 ∧
    (getAvailableGammShare snapEndToEnd "A" "3").amount = 30 ∧
    (getAllGammShare snapEndToEnd "A" "3").amount = 80 ∧
    getAllGammShareRatio snapEndToEnd "A" "3" = RatePretty.ofRat (4 / 5) := by
  refine ⟨?_, ?_, ?_, ?_, ?_⟩
  · simp [getLockedGammShare, snapEndToEnd, shareCur, getShareCurrency]
  · simp [getUnlockingGammShare, snapEndToEnd, shareCur, getShareCurrency]
  · simp [getAvailableGammShare, getBalanceFromCurrency, snapEndToEnd, shareCur,
      getShareCurrency]
  · simp [getAllGammShare, getAvailableGammShare, getLockedGammShare,
      getBalanceFromCurrency, CoinPretty.add, snapEndToEnd, shareCur, getShareCurrency]
    norm_num
  · simp [getAllGammShareRatio, getAllGammShare, getAvailableGammShare,
      getLockedGammShare, getBalanceFromCurrency, CoinPretty.add, snapEndToEnd,
      shareCur, getShareCurrency, RatePretty.ofRat]
    norm_num

/-- C7 counterexample: the component does not enforce that unlocking
coins are a subset of locked coins — on a snapshot whose unlocking view
records 5 shares of pool 1 while the locked view records none, the
unlocking share strictly exceeds the locked share. -/
theorem unlocking_gt_locked_cex :
    ¬ (getUnlockingGammShare snapUnlockOnly "A" "1").amount ≤
        (getLockedGammShare snapUnlockOnly "A" "1").amount := by
  simp [getUnlockingGammShare, getLockedGammShare, snapUnlockOnly, shareCur,
    getShareCurrency]

/-- C7 amended: whenever the external snapshot itself satisfies the
unlocking-subset-of-locked invariant for the share denom of the pool
(the recorded unlocking amount does not exceed the recorded locked
amount), the unlocking share is at most the locked share. -/
theorem unlocking_le_locked (s : Snapshot) (addr poolId : String)
    (h : foundShareAmount (s.unlockingCoins addr) ("gamm/pool/" ++ poolId) ≤
      foundShareAmount (s.lockedCoins addr) ("gamm/pool/" ++ poolId)) :
    (getUnlockingGammShare s addr poolId).amount ≤
      (getLockedGammShare s addr poolId).amount := by
  rw [getUnlockingGammShare_amount, getLockedGammShare_amount]
  exact h

/-- Witness for the amended C7 at the end-to-end snapshot, where the
unlocking view records 20 and the locked view records 50. -/
theorem unlocking_le_locked_witness :
    foundShareAmount (snapEndToEnd.unlockingCoins "A") ("gamm/pool/" ++ "3") ≤
      foundShareAmount (snapEndToEnd.lockedCoins "A") ("gamm/pool/" ++ "3") ∧
    (getUnlockingGammShare snapEndToEnd "A" "3").amount ≤
      (getLockedGammShare snapEndToEnd "A" "3").amount :=
  have h : foundShareAmount (snapEndToEnd.unlockingCoins "A") ("gamm/pool/" ++ "3") ≤
      foundShareAmount (snapEndToEnd.lockedCoins "A") ("gamm/pool/" ++ "3") := by
    simp [foundShareAmount, snapEndToEnd, shareCur, getShareCurrency]
    norm_num
  ⟨h, unlocking_le_locked snapEndToEnd "A" "3" h⟩

/-- C8: the share currency of a pool id has minimal denom
gamm/pool/ followed by the id, display denom GAMM/ followed by the id,
18 decimals, and stripping the ten-character share-denom head — as
getOwnPools does — recovers the pool id exactly. -/
theorem shareCurrency_roundTrip (poolId : String) :
    (getShareCurrency poolId).coinMinimalDenom = "gamm/pool/" ++ poolId ∧
    (getShareCurrency poolId).coinDenom = "GAMM/" ++ poolId ∧
    (getShareCurrency poolId).coinDecimals = 18 ∧
    strStartsWith (getShareCurrency poolId).coinMinimalDenom "gamm/pool/" = true ∧
    dropPoolDenomHead (getShareCurrency poolId).coinMinimalDenom = poolId := by
  refine ⟨rfl, rfl, rfl, ?_, ?_⟩
  · unfold strStartsWith getShareCurrency
    simp only [String.data_append, beq_iff_eq, List.take_left]
  · unfold dropPoolDenomHead getShareCurrency
    simp only [String.data_append]
    rw [List.drop_left' (by decide : ("gamm/pool/").data.length = 10)]

/-- C9: when neither the locked-coin nor the unlocking-coin source list
holds a record for the share denom of the pool, getLockedGammShare and
getUnlockingGammShare each return the zero amount tagged with the share
currency of the pool — never an error or absent value. -/
theorem missingRecord_zeroShare (s : Snapshot) (addr poolId : String) :
    ((s.lockedCoins addr).find?
      (fun coin => coin.currency.coinMinimalDenom ==
        (getShareCurrency poolId).coinMinimalDenom) = none →
      getLockedGammShare s addr poolId =
        { currency := getShareCurrency poolId, amount := 0 }) ∧
    ((s.unlockingCoins addr).find?
      (fun coin => coin.currency.coinMinimalDenom ==
        (getShareCurrency poolId).coinMinimalDenom) = none →
      getUnlockingGammShare s addr poolId =
        { currency := getShareCurrency poolId, amount := 0 }) := by
  constructor
  · intro hl
    unfold getLockedGammShare
    rw [hl]
  · intro hu
    unfold getUnlockingGammShare
    rw [hu]

/-- Witness for C9 at the mixed snapshot: the unlocking view lacks a
pool-5 record while the locked view holds one (so the unlocking getter
alone returns the tagged zero), and the locked view lacks a pool-6
record (so the locked getter returns the tagged zero there). -/
theorem missingRecord_zeroShare_witness :
    getUnlockingGammShare snapLockOnly "A" "5" =
      { currency := getShareCurrency "5", amount := 0 } ∧
    getLockedGammShare snapLockOnly "A" "6" =
      { currency := getShareCurrency "6", amount := 0 } ∧
    getLockedGammShare snapLockOnly "A" "5" =
      { currency := shareCur "5", amount := 50 } :=
  ⟨(missingRecord_zeroShare snapLockOnly "A" "5").2 rfl,
   (missingRecord_zeroShare snapLockOnly "A" "6").1 rfl,
   by decide⟩

/-- C10: the four amount-returning operations never consult the pool
lookup — two snapshots that agree on the balance, locked-coin and
unlocking-coin views give identical amounts whatever their pool
registries, for every address and pool id. -/
theorem amounts_ignore_pools (s t : Snapshot) (addr poolId : String)
    (hb : s.balances = t.balances) (hl : s.lockedCoins = t.lockedCoins)
    (hu : s.unlockingCoins = t.unlockingCoins) :
    getAvailableGammShare s addr poolId = getAvailableGammShare t addr poolId ∧
    getLockedGammShare s addr poolId = getLockedGammShare t addr poolId ∧
    getUnlockingGammShare s addr poolId = getUnlockingGammShare t addr poolId ∧
    getAllGammShare s addr poolId = getAllGammShare t addr poolId := by
  refine ⟨?_, ?_, ?_, ?_⟩ <;>
    simp [getAvailableGammShare, getLockedGammShare, getUnlockingGammShare,
      getAllGammShare, getBalanceFromCurrency, hb, hl, hu]

/-- Witness for C10: the end-to-end snapshot and its pool-free twin
agree on all amounts even though one registry knows pool 3 and the
other knows nothing. -/
theorem amounts_ignore_pools_witness :
    snapEndToEnd.balances = snapEndToEndNoPool.balances ∧
    snapEndToEnd.lockedCoins = snapEndToEndNoPool.lockedCoins ∧
    snapEndToEnd.unlockingCoins = snapEndToEndNoPool.unlockingCoins ∧
    snapEndToEnd.pools "3" ≠ snapEndToEndNoPool.pools "3" ∧
    (getAvailableGammShare snapEndToEnd "A" "3" =
      getAvailableGammShare snapEndToEndNoPool "A" "3" ∧
    getLockedGammShare snapEndToEnd "A" "3" =
      getLockedGammShare snapEndToEndNoPool "A" "3" ∧
    getUnlockingGammShare snapEndToEnd "A" "3" =
      getUnlockingGammShare snapEndToEndNoPool "A" "3" ∧
    getAllGammShare snapEndToEnd "A" "3" =
      getAllGammShare snapEndToEndNoPool "A" "3") :=
  ⟨rfl, rfl, rfl, by simp [snapEndToEnd, snapEndToEndNoPool],
    amounts_ignore_pools snapEndToEnd snapEndToEndNoPool "A" "3" rfl rfl rfl⟩

end PoolShare
